import Mathlib

/-!
# The seat of `types/seat/wlr_seat.c`

A shallow embedding of the seat bookkeeping of `wlr_seat.c`: the capability mask,
the list of client bindings, the two focus references, and the calls the file
makes into the Wayland library and into the signal bus, recorded as a trace.

Pointers are handles (`Nat`), a possibly-null pointer is an `Option`. A client
binding (`struct wlr_seat_client`) is named by the handle of its `wl_resource`:
the struct and its resource are in one-to-one correspondence through the
resource's user data (lines 122-123 and 293-298 of the source). The `uint32_t`
values (capability mask, version, object id, serial) are `Nat`: the file only
stores, compares and masks them, it does no arithmetic that could wrap.
-/

namespace WlrSeat

/-! ## Protocol constants (from the Wayland protocol header the file includes) -/

/-- Bit of `enum wl_seat_capability` for the pointer. -/
def WL_SEAT_CAPABILITY_POINTER : Nat := 1

/-- Bit of `enum wl_seat_capability` for the keyboard. -/
def WL_SEAT_CAPABILITY_KEYBOARD : Nat := 2

/-- Bit of `enum wl_seat_capability` for touch. -/
def WL_SEAT_CAPABILITY_TOUCH : Nat := 4

/-- First version of `wl_seat` that has the `name` event. -/
def WL_SEAT_NAME_SINCE_VERSION : Nat := 2

/-! ## Data model -/

/-- A client binding, `struct wlr_seat_client`: its resource handle, the
`wl_client` it belongs to, the version its resource was created with, and the
five lists of sub-object resources it owns (most recently inserted first). -/
structure wlr_seat_client where
  wl_resource : Nat
  client : Nat
  version : Nat
  pointers : List Nat
  keyboards : List Nat
  touches : List Nat
  data_devices : List Nat
  primary_selection_devices : List Nat
  deriving DecidableEq, Repr

/-- The part of `struct wlr_seat_pointer_state` the file reads and writes. -/
structure wlr_seat_pointer_state where
  focused_client : Option Nat
  grab_serial : Nat
  deriving DecidableEq, Repr

/-- The part of `struct wlr_seat_keyboard_state` the file reads and writes. -/
structure wlr_seat_keyboard_state where
  focused_client : Option Nat
  deriving DecidableEq, Repr

/-- The part of `struct wlr_seat_touch_state` the file mentions. -/
structure wlr_seat_touch_state where
  grab_serial : Nat
  deriving DecidableEq, Repr

/-- The seat, `struct wlr_seat`. `clients` is the `wl_list` of bindings in list
order (the element right after the list head comes first). -/
structure wlr_seat where
  name : String
  capabilities : Nat
  clients : List wlr_seat_client
  pointer_state : wlr_seat_pointer_state
  keyboard_state : wlr_seat_keyboard_state
  touch_state : wlr_seat_touch_state
  selection_source : Option Nat
  primary_selection_source : Option Nat
  deriving DecidableEq, Repr

/-- A call that leaves the file: a message to a client, a signal emission or the
destruction of a resource. A signal emission and a resource destruction run
callbacks, so they carry the seat as it stands when the call is made. -/
inductive Event where
  /-- Line 137, `wlr_signal_emit_safe(&seat->events.destroy, seat)`. -/
  | seat_destroy_signal (seen : wlr_seat)
  /-- Line 143, `wlr_data_source_cancel(seat->selection_source)`. -/
  | data_source_cancel (source : Nat)
  /-- Line 147, the `cancel` callback of the primary selection source. -/
  | primary_selection_source_cancel (source : Nat)
  /-- Line 54, `wlr_signal_emit_safe(&client->events.destroy, client)`. -/
  | client_destroy_signal (client : Nat) (seen : wlr_seat)
  /-- Lines 65-78, `wl_resource_destroy(resource)` on a sub-object. -/
  | resource_destroy (resource : Nat) (seen : wlr_seat)
  /-- The call `wl_seat_send_name(resource, name)`. -/
  | send_name (resource : Nat) (name : String)
  /-- The call `wl_seat_send_capabilities(resource, capabilities)`. -/
  | send_capabilities (resource : Nat) (capabilities : Nat)
  /-- The call `wl_client_post_no_memory(client)`. -/
  | post_no_memory (client : Nat)
  /-- Line 158, `wl_global_destroy(seat->wl_global)`. -/
  | global_destroy
  deriving DecidableEq, Repr

/-- The seat together with the calls made so far, oldest first. -/
structure World where
  seat : wlr_seat
  trace : List Event
  deriving DecidableEq, Repr

/-- Record one call at the end of the trace. -/
def World.log (w : World) (e : Event) : World :=
  { w with trace := w.trace ++ [e] }

/-- The resource handles of the registered bindings, in list order. -/
def wlr_seat.resources (s : wlr_seat) : List Nat :=
  s.clients.map (fun c => c.wl_resource)

/-- The sub-object resources a binding owns, in the order lines 64-79 visit them. -/
def wlr_seat_client.owned (c : wlr_seat_client) : List Nat :=
  c.pointers ++ c.keyboards ++ c.touches ++ c.data_devices ++ c.primary_selection_devices

/-- Lines 293-298: the binding a seat resource stands for. The assertion of the
source holds exactly for the resources of live bindings; `none` is its failure. -/
def wlr_seat_client_from_resource (s : wlr_seat) (resource : Nat) : Option wlr_seat_client :=
  s.clients.find? (fun c => c.wl_resource == resource)

/-- Write a binding back into the seat: the in-place update of the struct the
resource points to. -/
def World.store (w : World) (c : wlr_seat_client) : World :=
  { w with seat := { w.seat with
      clients := w.seat.clients.map (fun d => if d.wl_resource = c.wl_resource then c else d) } }

/-! ## Sub-object creation (defined outside this file) -/

/-- Modelled from the spec: `seat_client_create_pointer` is declared in
`types/wlr_seat.h` and defined in another file; by the spec a granted request has
"a pointer sub-object created and registered under that binding". The sub-object
is named by the object id of the request. -/
def seat_client_create_pointer (c : wlr_seat_client) (_version id : Nat) : wlr_seat_client :=
  { c with pointers := id :: c.pointers }

/-- Modelled from the spec: `seat_client_create_keyboard`, as for the pointer. -/
def seat_client_create_keyboard (c : wlr_seat_client) (_version id : Nat) : wlr_seat_client :=
  { c with keyboards := id :: c.keyboards }

/-- Modelled from the spec: `seat_client_create_touch`, as for the pointer. -/
def seat_client_create_touch (c : wlr_seat_client) (_version id : Nat) : wlr_seat_client :=
  { c with touches := id :: c.touches }

/-! ## The requests of `wl_seat` (lines 15-95) -/

/-- Lines 15-25. -/
def seat_handle_get_pointer (w : World) (seat_resource id : Nat) : World :=
  match wlr_seat_client_from_resource w.seat seat_resource with
  | none => w
  | some seat_client =>
    if w.seat.capabilities &&& WL_SEAT_CAPABILITY_POINTER = 0 then w
    else
      let version := seat_client.version
      w.store (seat_client_create_pointer seat_client version id)

/-- Lines 27-37. -/
def seat_handle_get_keyboard (w : World) (seat_resource id : Nat) : World :=
  match wlr_seat_client_from_resource w.seat seat_resource with
  | none => w
  | some seat_client =>
    if w.seat.capabilities &&& WL_SEAT_CAPABILITY_KEYBOARD = 0 then w
    else
      let version := seat_client.version
      w.store (seat_client_create_keyboard seat_client version id)

/-- Lines 39-49. -/
def seat_handle_get_touch (w : World) (seat_resource id : Nat) : World :=
  match wlr_seat_client_from_resource w.seat seat_resource with
  | none => w
  | some seat_client =>
    if w.seat.capabilities &&& WL_SEAT_CAPABILITY_TOUCH = 0 then w
    else
      let version := seat_client.version
      w.store (seat_client_create_touch seat_client version id)

/-- One `wl_resource_for_each_safe` loop of lines 63-79: every resource of the
list is handed to `wl_resource_destroy`. The unlinking done by the sub-object's
own destroy handler (outside this file) is not part of the embedding; the
binding is freed at line 82 either way. -/
def wl_resource_destroy_each (w : World) (resources : List Nat) : World :=
  resources.foldl (fun v r => v.log (Event.resource_destroy r v.seat)) w

/-- Lines 56-58. -/
def clear_pointer_focus (s : wlr_seat) (client : Nat) : wlr_seat :=
  if s.pointer_state.focused_client = some client then
    { s with pointer_state := { s.pointer_state with focused_client := none } }
  else s

/-- Lines 59-61. -/
def clear_keyboard_focus (s : wlr_seat) (client : Nat) : wlr_seat :=
  if s.keyboard_state.focused_client = some client then
    { s with keyboard_state := { s.keyboard_state with focused_client := none } }
  else s

/-- Line 81, `wl_list_remove(&client->link)`: the node of this binding leaves the
list (a handle names one node). -/
def wl_list_remove (s : wlr_seat) (client : Nat) : wlr_seat :=
  { s with clients := s.clients.filter (fun c => c.wl_resource != client) }

/-- Lines 51-83, the destroy handler of a binding's resource. Listeners of the
destroy signal are compositor code; they observe the seat and do not change it. -/
def seat_client_resource_destroy (w : World) (seat_resource : Nat) : World :=
  match wlr_seat_client_from_resource w.seat seat_resource with
  | none => w
  | some client =>
    let w1 := w.log (Event.client_destroy_signal client.wl_resource w.seat)
    let w2 := { w1 with seat := clear_pointer_focus w1.seat client.wl_resource }
    let w3 := { w2 with seat := clear_keyboard_focus w2.seat client.wl_resource }
    let w4 := wl_resource_destroy_each w3 client.pointers
    let w5 := wl_resource_destroy_each w4 client.keyboards
    let w6 := wl_resource_destroy_each w5 client.touches
    let w7 := wl_resource_destroy_each w6 client.data_devices
    let w8 := wl_resource_destroy_each w7 client.primary_selection_devices
    { w8 with seat := wl_list_remove w8.seat client.wl_resource }

/-- Lines 85-88: `wl_resource_destroy` on the binding's resource runs its destroy
handler, which line 122 sets to `seat_client_resource_destroy`. -/
def seat_handle_release (w : World) (resource : Nat) : World :=
  seat_client_resource_destroy w resource

/-! ## Bind, create, destroy (lines 97-261) -/

/-- Lines 97-130. `calloc_ok` says whether the `calloc` of line 103 succeeds,
`resource` is what `wl_resource_create` returns at line 109. -/
def seat_handle_bind (w : World) (client version _id : Nat)
    (calloc_ok : Bool) (resource : Option Nat) : World :=
  if !calloc_ok then w.log (Event.post_no_memory client)
  else
    match resource with
    | none => w.log (Event.post_no_memory client)
    | some r =>
      let seat_client : wlr_seat_client :=
        { wl_resource := r, client := client, version := version,
          pointers := [], keyboards := [], touches := [],
          data_devices := [], primary_selection_devices := [] }
      let w1 := { w with seat := { w.seat with clients := seat_client :: w.seat.clients } }
      let w2 := if version ≥ WL_SEAT_NAME_SINCE_VERSION then
          w1.log (Event.send_name seat_client.wl_resource w1.seat.name)
        else w1
      w2.log (Event.send_capabilities seat_client.wl_resource w2.seat.capabilities)

/-- Lines 132-164. The argument is the (possibly null) seat with the trace so
far; the result holds the seat as it stands when line 163 frees it. -/
def wlr_seat_destroy (seat : Option wlr_seat) (trace : List Event) :
    Option wlr_seat × List Event :=
  match seat with
  | none => (none, trace)
  | some seat =>
    let w1 := (World.mk seat trace).log (Event.seat_destroy_signal seat)
    let w2 := match w1.seat.selection_source with
      | some src =>
        { (w1.log (Event.data_source_cancel src)) with
          seat := { w1.seat with selection_source := none } }
      | none => w1
    let w3 := match w2.seat.primary_selection_source with
      | some src =>
        { (w2.log (Event.primary_selection_source_cancel src)) with
          seat := { w2.seat with primary_selection_source := none } }
      | none => w2
    let w4 := w3.seat.clients.foldl
      (fun v client => seat_client_resource_destroy v client.wl_resource) w3
    let w5 := w4.log Event.global_destroy
    (some w5.seat, w5.trace)

/-- Lines 172-261. The five flags say whether the allocations of lines 173, 183,
195, 211 and 226 succeed; `calloc` zeroes every field the function does not set.
The grab objects, the drag icons and the signals are not part of the embedding. -/
def wlr_seat_create (name : String)
    (seat_ok pointer_grab_ok keyboard_grab_ok touch_grab_ok global_ok : Bool) :
    Option wlr_seat :=
  if !seat_ok then none
  else if !pointer_grab_ok then none
  else if !keyboard_grab_ok then none
  else if !touch_grab_ok then none
  else if !global_ok then none
  else some
    { name := name, capabilities := 0, clients := [],
      pointer_state := { focused_client := none, grab_serial := 0 },
      keyboard_state := { focused_client := none },
      touch_state := { grab_serial := 0 },
      selection_source := none, primary_selection_source := none }

/-- Lines 263-273. -/
def wlr_seat_client_for_wl_client (s : wlr_seat) (wl_client : Nat) : Option wlr_seat_client :=
  s.clients.find? (fun seat_client => seat_client.client == wl_client)

/-! ## Capabilities, name, serial (lines 275-305) -/

/-- Lines 275-282. -/
def wlr_seat_set_capabilities (w : World) (capabilities : Nat) : World :=
  let w1 := { w with seat := { w.seat with capabilities := capabilities } }
  w1.seat.clients.foldl
    (fun v client => v.log (Event.send_capabilities client.wl_resource capabilities)) w1

/-- Lines 284-291. -/
def wlr_seat_set_name (w : World) (name : String) : World :=
  let w1 := { w with seat := { w.seat with name := name } }
  w1.seat.clients.foldl
    (fun v client => v.log (Event.send_name client.wl_resource name)) w1

/-- Lines 300-305. -/
def wlr_seat_validate_grab_serial (_seat : wlr_seat) (_serial : Nat) : Bool :=
  true

/-- The check the comment of lines 302-303 spells out. -/
def grab_serial_matches (seat : wlr_seat) (serial : Nat) : Bool :=
  serial == seat.pointer_state.grab_serial || serial == seat.touch_state.grab_serial

/-! ## Focus assignment and runs of the seat -/

/-- The reference `ref` is empty or names a registered binding. -/
def registered (s : wlr_seat) (ref : Option Nat) : Prop :=
  match ref with
  | none => True
  | some b => b ∈ s.resources

instance registered_decidable (s : wlr_seat) : (ref : Option Nat) → Decidable (registered s ref)
  | none => isTrue trivial
  | some b => inferInstanceAs (Decidable (b ∈ s.resources))

/-- Both focus references are empty or name a registered binding. -/
def focus_valid (s : wlr_seat) : Prop :=
  registered s s.pointer_state.focused_client ∧ registered s s.keyboard_state.focused_client

instance focus_valid_decidable (s : wlr_seat) : Decidable (focus_valid s) :=
  inferInstanceAs (Decidable (_ ∧ _))

/-- Modelled from the spec: the routing logic that assigns pointer focus lives
outside this file; by the spec it gives focus to a registered binding or to none. -/
def assign_pointer_focus (w : World) (ref : Option Nat) : World :=
  if registered w.seat ref then
    { w with seat := { w.seat with
        pointer_state := { w.seat.pointer_state with focused_client := ref } } }
  else w

/-- Modelled from the spec: the routing logic that assigns keyboard focus, as for
the pointer. -/
def assign_keyboard_focus (w : World) (ref : Option Nat) : World :=
  if registered w.seat ref then
    { w with seat := { w.seat with
        keyboard_state := { w.seat.keyboard_state with focused_client := ref } } }
  else w

/-- What can happen to a seat: a bind, a request on a binding, the destruction of
a binding (release or disconnect), a change of capabilities or name, a focus
assignment. -/
inductive Op where
  | bind (client version id : Nat) (calloc_ok : Bool) (resource : Option Nat)
  | get_pointer (seat_resource id : Nat)
  | get_keyboard (seat_resource id : Nat)
  | get_touch (seat_resource id : Nat)
  | release (seat_resource : Nat)
  | destroy (seat_resource : Nat)
  | set_capabilities (capabilities : Nat)
  | set_name (name : String)
  | pointer_focus (ref : Option Nat)
  | keyboard_focus (ref : Option Nat)
  deriving DecidableEq, Repr

/-- One operation. The allocator never hands out the handle of a live resource,
so a bind that names one does not happen. -/
def step (w : World) : Op → World
  | Op.bind client version id calloc_ok resource =>
    match resource with
    | some r =>
      if r ∈ w.seat.resources then w
      else seat_handle_bind w client version id calloc_ok (some r)
    | none => seat_handle_bind w client version id calloc_ok none
  | Op.get_pointer seat_resource id => seat_handle_get_pointer w seat_resource id
  | Op.get_keyboard seat_resource id => seat_handle_get_keyboard w seat_resource id
  | Op.get_touch seat_resource id => seat_handle_get_touch w seat_resource id
  | Op.release seat_resource => seat_handle_release w seat_resource
  | Op.destroy seat_resource => seat_client_resource_destroy w seat_resource
  | Op.set_capabilities capabilities => wlr_seat_set_capabilities w capabilities
  | Op.set_name name => wlr_seat_set_name w name
  | Op.pointer_focus ref => assign_pointer_focus w ref
  | Op.keyboard_focus ref => assign_keyboard_focus w ref

/-- A sequence of operations, first to last. -/
def run (w : World) (ops : List Op) : World :=
  ops.foldl step w

/-- The argument of the last `set_capabilities` of the sequence, or 0 if it has
none. -/
def last_set_capabilities (ops : List Op) : Nat :=
  ops.foldl (fun m op => match op with
    | Op.set_capabilities c => c
    | _ => m) 0

/-- The successful binds of `binds` (client, version, resource), first to last. -/
def bind_all (w : World) (binds : List (Nat × Nat × Nat)) : World :=
  binds.foldl (fun v b => seat_handle_bind v b.1 b.2.1 0 true (some b.2.2)) w

/-- The binding a `client_destroy_signal` is for. -/
def Event.destroyed_client : Event → Option Nat
  | Event.client_destroy_signal client _ => some client
  | _ => none

/-- What a call of the trace destroys, if anything: a binding (its destroy signal
is emitted) or a sub-object (it is handed to `wl_resource_destroy`). -/
inductive Destroyed where
  | binding (client : Nat)
  | sub_object (resource : Nat)
  deriving DecidableEq, Repr

/-- The destruction a call stands for. -/
def Event.destroyed : Event → Option Destroyed
  | Event.client_destroy_signal client _ => some (Destroyed.binding client)
  | Event.resource_destroy resource _ => some (Destroyed.sub_object resource)
  | _ => none

/-- The destructions of one binding: the binding, then its sub-objects. -/
def wlr_seat_client.destructions (c : wlr_seat_client) : List Destroyed :=
  Destroyed.binding c.wl_resource :: c.owned.map Destroyed.sub_object

/-! ## Concrete seats -/

/-- A freshly created seat named `seat0`. -/
def seat0 : wlr_seat :=
  { name := "seat0", capabilities := 0, clients := [],
    pointer_state := { focused_client := none, grab_serial := 0 },
    keyboard_state := { focused_client := none },
    touch_state := { grab_serial := 0 },
    selection_source := none, primary_selection_source := none }

/-- The seat gets pointer and keyboard, then client 1 binds at version 6 and gets
resource 10. -/
def bound_once : World :=
  run (World.mk seat0 []) [Op.set_capabilities 3, Op.bind 1 6 1 true (some 10)]

/-- The binding of `bound_once`. -/
def binding10 : wlr_seat_client :=
  { wl_resource := 10, client := 1, version := 6, pointers := [], keyboards := [],
    touches := [], data_devices := [], primary_selection_devices := [] }

/-- Client 1 binds (resource 10, version 6) and asks for a pointer (id 11) and a
keyboard (id 12), client 2 binds (resource 20, version 1); binding 10 gets pointer
focus. -/
def bound_twice : World :=
  run (World.mk seat0 [])
    [Op.set_capabilities 3, Op.bind 1 6 1 true (some 10), Op.get_pointer 10 11,
     Op.get_keyboard 10 12, Op.bind 2 1 1 true (some 20), Op.pointer_focus (some 10)]

/-- Binding 10 of `bound_twice`. -/
def binding10_full : wlr_seat_client :=
  { wl_resource := 10, client := 1, version := 6, pointers := [11], keyboards := [12],
    touches := [], data_devices := [], primary_selection_devices := [] }

/-- Binding 20 of `bound_twice`. -/
def binding20 : wlr_seat_client :=
  { wl_resource := 20, client := 2, version := 1, pointers := [], keyboards := [],
    touches := [], data_devices := [], primary_selection_devices := [] }

/-- Client 1 binds first (resource 10), client 2 second (resource 20), both at
version 6, on a fresh seat. -/
def two_binds : World :=
  bind_all (World.mk seat0 []) [(1, 6, 10), (2, 6, 20)]

/-- A seat whose only binding (resource 10) was bound at version 1. -/
def bound_v1 : World :=
  run (World.mk seat0 []) [Op.bind 1 1 1 true (some 10)]

/-- A seat whose pointer grab serial is 1 and whose touch grab serial is 2. -/
def seat_serials : wlr_seat :=
  { seat0 with pointer_state := { focused_client := none, grab_serial := 1 },
               touch_state := { grab_serial := 2 } }

/-! ## Auxiliary facts -/

theorem wl_resource_destroy_each_eq (rs : List Nat) (w : World) :
    wl_resource_destroy_each w rs =
      { seat := w.seat,
        trace := w.trace ++ rs.map (fun r => Event.resource_destroy r w.seat) } := by
  induction rs generalizing w with
  | nil => simp [wl_resource_destroy_each]
  | cons r rs ih =>
    have h := ih (w.log (Event.resource_destroy r w.seat))
    simp only [wl_resource_destroy_each, List.foldl_cons] at h ⊢
    rw [h]
    simp [World.log]

theorem from_resource_wl_resource {s : wlr_seat} {b : Nat} {c : wlr_seat_client}
    (h : wlr_seat_client_from_resource s b = some c) : c.wl_resource = b := by
  have := List.find?_some h
  simpa using this

theorem from_resource_mem {s : wlr_seat} {b : Nat} {c : wlr_seat_client}
    (h : wlr_seat_client_from_resource s b = some c) : c ∈ s.clients :=
  List.mem_of_find?_eq_some h

/-- The destroy handler, unfolded for a registered binding. -/
theorem seat_client_resource_destroy_eq {w : World} {b : Nat} {c : wlr_seat_client}
    (h : wlr_seat_client_from_resource w.seat b = some c) :
    seat_client_resource_destroy w b =
      { seat := wl_list_remove (clear_keyboard_focus (clear_pointer_focus w.seat b) b) b,
        trace := w.trace ++ Event.client_destroy_signal b w.seat ::
          c.owned.map (fun r => Event.resource_destroy r
            (clear_keyboard_focus (clear_pointer_focus w.seat b) b)) } := by
  have hb := from_resource_wl_resource h
  simp only [seat_client_resource_destroy, h, wl_resource_destroy_each_eq, World.log, hb,
    wlr_seat_client.owned, List.map_append, List.append_assoc, List.singleton_append,
    List.cons_append, List.nil_append]

theorem clear_pointer_focus_clients (s : wlr_seat) (b : Nat) :
    (clear_pointer_focus s b).clients = s.clients := by
  unfold clear_pointer_focus; split <;> rfl

theorem clear_keyboard_focus_clients (s : wlr_seat) (b : Nat) :
    (clear_keyboard_focus s b).clients = s.clients := by
  unfold clear_keyboard_focus; split <;> rfl

theorem clear_pointer_focus_keyboard (s : wlr_seat) (b : Nat) :
    (clear_pointer_focus s b).keyboard_state = s.keyboard_state := by
  unfold clear_pointer_focus; split <;> rfl

theorem clear_keyboard_focus_pointer (s : wlr_seat) (b : Nat) :
    (clear_keyboard_focus s b).pointer_state = s.pointer_state := by
  unfold clear_keyboard_focus; split <;> rfl

theorem clear_pointer_focus_focused (s : wlr_seat) (b : Nat) :
    (clear_pointer_focus s b).pointer_state.focused_client =
      if s.pointer_state.focused_client = some b then none
      else s.pointer_state.focused_client := by
  unfold clear_pointer_focus; split <;> simp_all

theorem clear_keyboard_focus_focused (s : wlr_seat) (b : Nat) :
    (clear_keyboard_focus s b).keyboard_state.focused_client =
      if s.keyboard_state.focused_client = some b then none
      else s.keyboard_state.focused_client := by
  unfold clear_keyboard_focus; split <;> simp_all

/-- The seat a binding's destruction leaves behind. -/
theorem seat_client_resource_destroy_seat {w : World} {b : Nat} {c : wlr_seat_client}
    (h : wlr_seat_client_from_resource w.seat b = some c) :
    (seat_client_resource_destroy w b).seat =
      wl_list_remove (clear_keyboard_focus (clear_pointer_focus w.seat b) b) b := by
  rw [seat_client_resource_destroy_eq h]

theorem destroy_pointer_focus {w : World} {b : Nat} {c : wlr_seat_client}
    (h : wlr_seat_client_from_resource w.seat b = some c) :
    (seat_client_resource_destroy w b).seat.pointer_state.focused_client =
      if w.seat.pointer_state.focused_client = some b then none
      else w.seat.pointer_state.focused_client := by
  rw [seat_client_resource_destroy_seat h]
  simp only [wl_list_remove, clear_keyboard_focus_pointer, clear_pointer_focus_focused]

theorem destroy_keyboard_focus {w : World} {b : Nat} {c : wlr_seat_client}
    (h : wlr_seat_client_from_resource w.seat b = some c) :
    (seat_client_resource_destroy w b).seat.keyboard_state.focused_client =
      if w.seat.keyboard_state.focused_client = some b then none
      else w.seat.keyboard_state.focused_client := by
  rw [seat_client_resource_destroy_seat h]
  simp only [wl_list_remove, clear_keyboard_focus_focused, clear_pointer_focus_keyboard]

theorem destroy_clients {w : World} {b : Nat} {c : wlr_seat_client}
    (h : wlr_seat_client_from_resource w.seat b = some c) :
    (seat_client_resource_destroy w b).seat.clients =
      w.seat.clients.filter (fun d => d.wl_resource != b) := by
  rw [seat_client_resource_destroy_seat h]
  simp only [wl_list_remove, clear_keyboard_focus_clients, clear_pointer_focus_clients]

theorem from_resource_store {w : World} {b : Nat} {c d : wlr_seat_client}
    (h : wlr_seat_client_from_resource w.seat b = some c) (hd : d.wl_resource = b) :
    wlr_seat_client_from_resource (w.store d).seat b = some d := by
  have hc := from_resource_wl_resource h
  unfold wlr_seat_client_from_resource at h ⊢
  simp only [World.store, List.find?_map]
  have hfun : ((fun x : wlr_seat_client => x.wl_resource == b) ∘
      fun x : wlr_seat_client => if x.wl_resource = d.wl_resource then d else x) =
      fun x : wlr_seat_client => x.wl_resource == b := by
    funext x
    simp only [Function.comp]
    split
    · next hx => simp [hd, hx ▸ hd]
    · rfl
  rw [hfun, h]
  simp [hc, hd]

theorem store_resources (w : World) (d : wlr_seat_client) :
    (w.store d).seat.resources = w.seat.resources := by
  simp only [World.store, wlr_seat.resources, List.map_map]
  apply List.map_congr_left
  intro x _
  simp only [Function.comp]
  split
  · next hx => exact hx.symm
  · rfl

theorem foldl_log_eq (f : wlr_seat_client → Event) (l : List wlr_seat_client) (w : World) :
    l.foldl (fun v c => v.log (f c)) w = { seat := w.seat, trace := w.trace ++ l.map f } := by
  induction l generalizing w with
  | nil => simp
  | cons c l ih =>
    rw [List.foldl_cons, ih]
    simp [World.log]

theorem wlr_seat_set_capabilities_eq (w : World) (m : Nat) :
    wlr_seat_set_capabilities w m =
      { seat := { w.seat with capabilities := m },
        trace := w.trace ++ w.seat.clients.map (fun c => Event.send_capabilities c.wl_resource m) } := by
  simp only [wlr_seat_set_capabilities, foldl_log_eq]

theorem wlr_seat_set_name_eq (w : World) (n : String) :
    wlr_seat_set_name w n =
      { seat := { w.seat with name := n },
        trace := w.trace ++ w.seat.clients.map (fun c => Event.send_name c.wl_resource n) } := by
  simp only [wlr_seat_set_name, foldl_log_eq]

theorem seat_handle_bind_eq (w : World) (client version id r : Nat) :
    seat_handle_bind w client version id true (some r) =
      { seat := { w.seat with clients :=
          { wl_resource := r, client := client, version := version, pointers := [],
            keyboards := [], touches := [], data_devices := [],
            primary_selection_devices := [] } :: w.seat.clients },
        trace := w.trace ++
          (if WL_SEAT_NAME_SINCE_VERSION ≤ version then [Event.send_name r w.seat.name] else []) ++
          [Event.send_capabilities r w.seat.capabilities] } := by
  unfold seat_handle_bind
  by_cases hv : WL_SEAT_NAME_SINCE_VERSION ≤ version
  · simp [World.log, hv]
  · simp [World.log, hv]

theorem seat_handle_bind_failed (w : World) (client version id : Nat) (calloc_ok : Bool)
    (resource : Option Nat) (h : calloc_ok = false ∨ resource = none) :
    seat_handle_bind w client version id calloc_ok resource =
      w.log (Event.post_no_memory client) := by
  unfold seat_handle_bind
  rcases h with h | h
  · simp [h]
  · subst h
    cases calloc_ok <;> simp

theorem bind_all_resources (binds : List (Nat × Nat × Nat)) (w : World) :
    (bind_all w binds).seat.resources =
      (binds.map (fun b => b.2.2)).reverse ++ w.seat.resources := by
  induction binds generalizing w with
  | nil => simp [bind_all]
  | cons b binds ih =>
    have h := ih (seat_handle_bind w b.1 b.2.1 0 true (some b.2.2))
    simp only [bind_all, List.foldl_cons] at h ⊢
    rw [h, seat_handle_bind_eq]
    simp [wlr_seat.resources]

theorem wlr_seat_create_eq {name : String} {a b c d e : Bool} {s : wlr_seat}
    (h : wlr_seat_create name a b c d e = some s) :
    s = { name := name, capabilities := 0, clients := [],
          pointer_state := { focused_client := none, grab_serial := 0 },
          keyboard_state := { focused_client := none },
          touch_state := { grab_serial := 0 },
          selection_source := none, primary_selection_source := none } := by
  unfold wlr_seat_create at h
  cases a <;> cases b <;> cases c <;> cases d <;> cases e <;> simp at h
  exact h.symm

theorem store_seat (w : World) (d : wlr_seat_client) :
    (w.store d).seat = { w.seat with clients := (w.store d).seat.clients } := rfl

/-- A request for a sub-object changes at most the records of the binding list,
never its handles. -/
theorem seat_handle_get_pointer_frame (w : World) (b id : Nat) :
    (seat_handle_get_pointer w b id).seat =
        { w.seat with clients := (seat_handle_get_pointer w b id).seat.clients } ∧
      (seat_handle_get_pointer w b id).seat.resources = w.seat.resources := by
  unfold seat_handle_get_pointer
  split
  · exact ⟨rfl, rfl⟩
  · split
    · exact ⟨rfl, rfl⟩
    · exact ⟨store_seat _ _, store_resources _ _⟩

theorem seat_handle_get_keyboard_frame (w : World) (b id : Nat) :
    (seat_handle_get_keyboard w b id).seat =
        { w.seat with clients := (seat_handle_get_keyboard w b id).seat.clients } ∧
      (seat_handle_get_keyboard w b id).seat.resources = w.seat.resources := by
  unfold seat_handle_get_keyboard
  split
  · exact ⟨rfl, rfl⟩
  · split
    · exact ⟨rfl, rfl⟩
    · exact ⟨store_seat _ _, store_resources _ _⟩

theorem seat_handle_get_touch_frame (w : World) (b id : Nat) :
    (seat_handle_get_touch w b id).seat =
        { w.seat with clients := (seat_handle_get_touch w b id).seat.clients } ∧
      (seat_handle_get_touch w b id).seat.resources = w.seat.resources := by
  unfold seat_handle_get_touch
  split
  · exact ⟨rfl, rfl⟩
  · split
    · exact ⟨rfl, rfl⟩
    · exact ⟨store_seat _ _, store_resources _ _⟩

theorem clear_pointer_focus_capabilities (s : wlr_seat) (b : Nat) :
    (clear_pointer_focus s b).capabilities = s.capabilities := by
  unfold clear_pointer_focus; split <;> rfl

theorem clear_keyboard_focus_capabilities (s : wlr_seat) (b : Nat) :
    (clear_keyboard_focus s b).capabilities = s.capabilities := by
  unfold clear_keyboard_focus; split <;> rfl

theorem seat_client_resource_destroy_unregistered {w : World} {b : Nat}
    (h : wlr_seat_client_from_resource w.seat b = none) :
    seat_client_resource_destroy w b = w := by
  simp only [seat_client_resource_destroy, h]

theorem destroy_capabilities (w : World) (b : Nat) :
    (seat_client_resource_destroy w b).seat.capabilities = w.seat.capabilities := by
  cases h : wlr_seat_client_from_resource w.seat b with
  | none => rw [seat_client_resource_destroy_unregistered h]
  | some c =>
    rw [seat_client_resource_destroy_seat h]
    simp only [wl_list_remove, clear_keyboard_focus_capabilities,
      clear_pointer_focus_capabilities]

theorem seat_handle_bind_capabilities (w : World) (client version id : Nat) (ok : Bool)
    (resource : Option Nat) :
    (seat_handle_bind w client version id ok resource).seat.capabilities =
      w.seat.capabilities := by
  cases ok with
  | false => rw [seat_handle_bind_failed _ _ _ _ _ _ (Or.inl rfl)]; rfl
  | true =>
    cases resource with
    | none => rw [seat_handle_bind_failed _ _ _ _ _ _ (Or.inr rfl)]; rfl
    | some r => rw [seat_handle_bind_eq]

theorem assign_pointer_focus_capabilities (w : World) (ref : Option Nat) :
    (assign_pointer_focus w ref).seat.capabilities = w.seat.capabilities := by
  unfold assign_pointer_focus; split <;> rfl

theorem assign_keyboard_focus_capabilities (w : World) (ref : Option Nat) :
    (assign_keyboard_focus w ref).seat.capabilities = w.seat.capabilities := by
  unfold assign_keyboard_focus; split <;> rfl

theorem step_capabilities (w : World) (op : Op) :
    (step w op).seat.capabilities =
      match op with
      | Op.set_capabilities c => c
      | _ => w.seat.capabilities := by
  cases op with
  | bind client version id ok resource =>
    cases resource with
    | none => exact seat_handle_bind_capabilities _ _ _ _ _ _
    | some r =>
      simp only [step]
      split
      · rfl
      · exact seat_handle_bind_capabilities _ _ _ _ _ _
  | get_pointer b id =>
    simp only [step]
    rw [(seat_handle_get_pointer_frame w b id).1]
  | get_keyboard b id =>
    simp only [step]
    rw [(seat_handle_get_keyboard_frame w b id).1]
  | get_touch b id =>
    simp only [step]
    rw [(seat_handle_get_touch_frame w b id).1]
  | release b => exact destroy_capabilities w b
  | destroy b => exact destroy_capabilities w b
  | set_capabilities c => simp only [step, wlr_seat_set_capabilities_eq]
  | set_name n => simp only [step, wlr_seat_set_name_eq]
  | pointer_focus ref => exact assign_pointer_focus_capabilities w ref
  | keyboard_focus ref => exact assign_keyboard_focus_capabilities w ref

theorem run_capabilities (ops : List Op) (w : World) :
    (run w ops).seat.capabilities =
      ops.foldl (fun m op => match op with
        | Op.set_capabilities c => c
        | _ => m) w.seat.capabilities := by
  induction ops generalizing w with
  | nil => rfl
  | cons op ops ih =>
    simp only [run, List.foldl_cons] at ih ⊢
    rw [ih, step_capabilities]

theorem registered_mono {s t : wlr_seat} {ref : Option Nat}
    (hsub : ∀ b ∈ s.resources, b ∈ t.resources) (h : registered s ref) : registered t ref := by
  cases ref with
  | none => trivial
  | some b => exact hsub b h

theorem focus_valid_mono {s t : wlr_seat} (hp : t.pointer_state = s.pointer_state)
    (hk : t.keyboard_state = s.keyboard_state)
    (hsub : ∀ b ∈ s.resources, b ∈ t.resources) (h : focus_valid s) : focus_valid t := by
  unfold focus_valid at *
  rw [hp, hk]
  exact ⟨registered_mono hsub h.1, registered_mono hsub h.2⟩

theorem destroy_resources {w : World} {b : Nat} {c : wlr_seat_client}
    (h : wlr_seat_client_from_resource w.seat b = some c) :
    (seat_client_resource_destroy w b).seat.resources =
      w.seat.resources.filter (fun a => a != b) := by
  simp only [wlr_seat.resources, destroy_clients h, List.filter_map]
  rfl

theorem registered_after_destroy {w : World} {b : Nat} {c : wlr_seat_client}
    (h : wlr_seat_client_from_resource w.seat b = some c) {ref : Option Nat}
    (hr : registered w.seat ref) :
    registered (seat_client_resource_destroy w b).seat (if ref = some b then none else ref) := by
  split
  · trivial
  · next hne =>
    cases ref with
    | none => trivial
    | some a =>
      have hab : a ≠ b := fun hab => hne (by rw [hab])
      show a ∈ (seat_client_resource_destroy w b).seat.resources
      rw [destroy_resources h]
      simp only [List.mem_filter, bne_iff_ne, ne_eq]
      exact ⟨hr, hab⟩

theorem destroy_focus_valid (w : World) (b : Nat) (hv : focus_valid w.seat) :
    focus_valid (seat_client_resource_destroy w b).seat := by
  cases h : wlr_seat_client_from_resource w.seat b with
  | none => rw [seat_client_resource_destroy_unregistered h]; exact hv
  | some c =>
    unfold focus_valid
    rw [destroy_pointer_focus h, destroy_keyboard_focus h]
    exact ⟨registered_after_destroy h hv.1, registered_after_destroy h hv.2⟩

theorem bind_focus_valid (w : World) (client version id : Nat) (ok : Bool)
    (resource : Option Nat) (hv : focus_valid w.seat) :
    focus_valid (seat_handle_bind w client version id ok resource).seat := by
  cases ok with
  | false => rw [seat_handle_bind_failed _ _ _ _ _ _ (Or.inl rfl)]; exact hv
  | true =>
    cases resource with
    | none => rw [seat_handle_bind_failed _ _ _ _ _ _ (Or.inr rfl)]; exact hv
    | some r =>
      rw [seat_handle_bind_eq]
      refine @focus_valid_mono w.seat _ rfl rfl ?_ hv
      intro b hb
      simp only [wlr_seat.resources, List.map_cons, List.mem_cons]
      exact Or.inr hb

theorem assign_pointer_focus_valid (w : World) (ref : Option Nat) (hv : focus_valid w.seat) :
    focus_valid (assign_pointer_focus w ref).seat := by
  unfold assign_pointer_focus
  split
  · next hr => exact ⟨hr, hv.2⟩
  · exact hv

theorem assign_keyboard_focus_valid (w : World) (ref : Option Nat) (hv : focus_valid w.seat) :
    focus_valid (assign_keyboard_focus w ref).seat := by
  unfold assign_keyboard_focus
  split
  · next hr => exact ⟨hv.1, hr⟩
  · exact hv

theorem step_focus_valid (w : World) (op : Op) (hv : focus_valid w.seat) :
    focus_valid (step w op).seat := by
  cases op with
  | bind client version id ok resource =>
    cases resource with
    | none => exact bind_focus_valid _ _ _ _ _ _ hv
    | some r =>
      simp only [step]
      split
      · exact hv
      · exact bind_focus_valid _ _ _ _ _ _ hv
  | get_pointer b id =>
    have hf := seat_handle_get_pointer_frame w b id
    refine focus_valid_mono ?_ ?_ ?_ hv
    · show (seat_handle_get_pointer w b id).seat.pointer_state = _
      rw [hf.1]
    · show (seat_handle_get_pointer w b id).seat.keyboard_state = _
      rw [hf.1]
    · intro a ha
      show a ∈ (seat_handle_get_pointer w b id).seat.resources
      rw [hf.2]; exact ha
  | get_keyboard b id =>
    have hf := seat_handle_get_keyboard_frame w b id
    refine focus_valid_mono ?_ ?_ ?_ hv
    · show (seat_handle_get_keyboard w b id).seat.pointer_state = _
      rw [hf.1]
    · show (seat_handle_get_keyboard w b id).seat.keyboard_state = _
      rw [hf.1]
    · intro a ha
      show a ∈ (seat_handle_get_keyboard w b id).seat.resources
      rw [hf.2]; exact ha
  | get_touch b id =>
    have hf := seat_handle_get_touch_frame w b id
    refine focus_valid_mono ?_ ?_ ?_ hv
    · show (seat_handle_get_touch w b id).seat.pointer_state = _
      rw [hf.1]
    · show (seat_handle_get_touch w b id).seat.keyboard_state = _
      rw [hf.1]
    · intro a ha
      show a ∈ (seat_handle_get_touch w b id).seat.resources
      rw [hf.2]; exact ha
  | release b => exact destroy_focus_valid w b hv
  | destroy b => exact destroy_focus_valid w b hv
  | set_capabilities c =>
    simp only [step, wlr_seat_set_capabilities_eq]
    exact focus_valid_mono rfl rfl (fun _ h => h) hv
  | set_name n =>
    simp only [step, wlr_seat_set_name_eq]
    exact focus_valid_mono rfl rfl (fun _ h => h) hv
  | pointer_focus ref => exact assign_pointer_focus_valid w ref hv
  | keyboard_focus ref => exact assign_keyboard_focus_valid w ref hv

theorem run_focus_valid (ops : List Op) (w : World) (hv : focus_valid w.seat) :
    focus_valid (run w ops).seat := by
  induction ops generalizing w with
  | nil => exact hv
  | cons op ops ih => exact ih (step w op) (step_focus_valid w op hv)

theorem destroy_trace_destroyed {w : World} {b : Nat} {c : wlr_seat_client}
    (h : wlr_seat_client_from_resource w.seat b = some c) :
    ∃ new : List Event,
      (seat_client_resource_destroy w b).trace = w.trace ++ new ∧
      new.filterMap Event.destroyed = c.destructions ∧
      new.filterMap Event.destroyed_client = [c.wl_resource] := by
  refine ⟨_, by rw [seat_client_resource_destroy_eq h], ?_, ?_⟩
  · simp only [List.filterMap_cons, Event.destroyed, List.filterMap_map,
      wlr_seat_client.destructions, from_resource_wl_resource h]
    congr 1
    exact congrFun (List.filterMap_eq_map _) _
  · simp only [List.filterMap_cons, Event.destroyed_client, List.filterMap_map,
      from_resource_wl_resource h]
    congr 1
    induction c.owned with
    | nil => rfl
    | cons r rs ih => simp [List.filterMap_cons, Event.destroyed_client]

/-- The loop of lines 152-156 on a seat whose binding list is `l`. -/
theorem destroy_all (l : List wlr_seat_client) (w : World) (hl : w.seat.clients = l)
    (hnodup : (l.map (fun c => c.wl_resource)).Nodup) (hv : focus_valid w.seat) :
    ∃ new : List Event,
      (l.foldl (fun v c => seat_client_resource_destroy v c.wl_resource) w).trace =
        w.trace ++ new ∧
      new.filterMap Event.destroyed = l.flatMap wlr_seat_client.destructions ∧
      new.filterMap Event.destroyed_client = l.map (fun c => c.wl_resource) ∧
      (l.foldl (fun v c => seat_client_resource_destroy v c.wl_resource) w).seat.clients = [] ∧
      focus_valid (l.foldl (fun v c => seat_client_resource_destroy v c.wl_resource) w).seat := by
  induction l generalizing w with
  | nil => exact ⟨[], by simp, rfl, rfl, hl, hv⟩
  | cons c l ih =>
    have hfind : wlr_seat_client_from_resource w.seat c.wl_resource = some c := by
      simp [wlr_seat_client_from_resource, hl]
    rw [List.map_cons, List.nodup_cons] at hnodup
    have hrest : (seat_client_resource_destroy w c.wl_resource).seat.clients = l := by
      rw [destroy_clients hfind, hl, List.filter_cons]
      simp only [bne_self_eq_false, Bool.false_eq_true, if_false]
      rw [List.filter_eq_self]
      intro d hd
      simp only [bne_iff_ne, ne_eq]
      intro hdc
      apply hnodup.1
      rw [← hdc]
      exact List.mem_map_of_mem _ hd
    obtain ⟨new1, ht1, hd1, hc1⟩ := destroy_trace_destroyed hfind
    obtain ⟨new2, ht2, hd2, hc2, hclients, hvalid⟩ :=
      ih (seat_client_resource_destroy w c.wl_resource) hrest hnodup.2
        (destroy_focus_valid w c.wl_resource hv)
    refine ⟨new1 ++ new2, ?_, ?_, ?_, ?_, ?_⟩
    · rw [List.foldl_cons, ht2, ht1, List.append_assoc]
    · rw [List.filterMap_append, hd1, hd2, List.flatMap_cons]
    · rw [List.filterMap_append, hc1, hc2]
      rfl
    · exact hclients
    · exact hvalid

theorem focus_valid_no_clients {s : wlr_seat} (hc : s.clients = []) (hv : focus_valid s) :
    s.pointer_state.focused_client = none ∧ s.keyboard_state.focused_client = none := by
  unfold focus_valid registered at hv
  simp only [wlr_seat.resources, hc, List.map_nil, List.not_mem_nil] at hv
  constructor
  · cases hp : s.pointer_state.focused_client with
    | none => rfl
    | some b => rw [hp] at hv; exact hv.1.elim
  · cases hk : s.keyboard_state.focused_client with
    | none => rfl
    | some b => rw [hk] at hv; exact hv.2.elim

/-- The seat and trace with which `wlr_seat_destroy` enters its loop (line 152). -/
theorem wlr_seat_destroy_loop_entry (seat : wlr_seat) (trace : List Event) :
    ∃ (w3 : World) (pre : List Event),
      wlr_seat_destroy (some seat) trace =
        (some (w3.seat.clients.foldl
            (fun v c => seat_client_resource_destroy v c.wl_resource) w3).seat,
          (w3.seat.clients.foldl
            (fun v c => seat_client_resource_destroy v c.wl_resource) w3).trace ++
            [Event.global_destroy]) ∧
      w3.seat.clients = seat.clients ∧
      w3.seat.pointer_state = seat.pointer_state ∧
      w3.seat.keyboard_state = seat.keyboard_state ∧
      w3.trace = trace ++ pre ∧
      pre.filterMap Event.destroyed = [] ∧
      pre.filterMap Event.destroyed_client = [] := by
  cases hs : seat.selection_source <;> cases hp : seat.primary_selection_source
  · exact ⟨World.mk seat (trace ++ [Event.seat_destroy_signal seat]), _,
      by simp [wlr_seat_destroy, World.log, hs, hp], rfl, rfl, rfl, rfl, rfl, rfl⟩
  · next src =>
    exact ⟨World.mk { seat with primary_selection_source := none }
        (trace ++ [Event.seat_destroy_signal seat, Event.primary_selection_source_cancel src]), _,
      by simp [wlr_seat_destroy, World.log, hs, hp], rfl, rfl, rfl, rfl, rfl, rfl⟩
  · next src =>
    exact ⟨World.mk { seat with selection_source := none }
        (trace ++ [Event.seat_destroy_signal seat, Event.data_source_cancel src]), _,
      by simp [wlr_seat_destroy, World.log, hs, hp], rfl, rfl, rfl, rfl, rfl, rfl⟩
  · next src1 src2 =>
    exact ⟨World.mk { seat with selection_source := none, primary_selection_source := none }
        (trace ++ [Event.seat_destroy_signal seat, Event.data_source_cancel src1,
          Event.primary_selection_source_cancel src2]), _,
      by simp [wlr_seat_destroy, World.log, hs, hp], rfl, rfl, rfl, rfl, rfl, rfl⟩

/-! ## Requests for a sub-object -/

/-- C1: for a registered binding `b` and each capability, the get request puts a
new sub-object of that kind under `b` exactly when the capability bit is set in
the seat's mask; when the bit is absent the whole state, trace included, is what
it was (nothing is created, nothing is posted to the client); a granted request
posts nothing either. -/
theorem get_sub_object_iff_capability (w : World) (b id : Nat) (c : wlr_seat_client)
    (h : wlr_seat_client_from_resource w.seat b = some c) :
    ((wlr_seat_client_from_resource (seat_handle_get_pointer w b id).seat b =
          some { c with pointers := id :: c.pointers } ↔
        w.seat.capabilities &&& WL_SEAT_CAPABILITY_POINTER ≠ 0) ∧
      (w.seat.capabilities &&& WL_SEAT_CAPABILITY_POINTER = 0 →
        seat_handle_get_pointer w b id = w) ∧
      (seat_handle_get_pointer w b id).trace = w.trace) ∧
    ((wlr_seat_client_from_resource (seat_handle_get_keyboard w b id).seat b =
          some { c with keyboards := id :: c.keyboards } ↔
        w.seat.capabilities &&& WL_SEAT_CAPABILITY_KEYBOARD ≠ 0) ∧
      (w.seat.capabilities &&& WL_SEAT_CAPABILITY_KEYBOARD = 0 →
        seat_handle_get_keyboard w b id = w) ∧
      (seat_handle_get_keyboard w b id).trace = w.trace) ∧
    ((wlr_seat_client_from_resource (seat_handle_get_touch w b id).seat b =
          some { c with touches := id :: c.touches } ↔
        w.seat.capabilities &&& WL_SEAT_CAPABILITY_TOUCH ≠ 0) ∧
      (w.seat.capabilities &&& WL_SEAT_CAPABILITY_TOUCH = 0 →
        seat_handle_get_touch w b id = w) ∧
      (seat_handle_get_touch w b id).trace = w.trace) := by
  have hc := from_resource_wl_resource h
  have hne : ∀ l : List Nat, l ≠ id :: l := by
    intro l hl
    have := congrArg List.length hl
    simp at this
  refine ⟨⟨⟨?_, ?_⟩, ?_, ?_⟩, ⟨⟨?_, ?_⟩, ?_, ?_⟩, ⟨⟨?_, ?_⟩, ?_, ?_⟩⟩
  · intro hget hbit
    simp only [seat_handle_get_pointer, h, hbit, if_true] at hget
    have := congrArg wlr_seat_client.pointers (Option.some.inj hget)
    exact hne _ this
  · intro hbit
    simp only [seat_handle_get_pointer, h, hbit, if_false]
    exact from_resource_store h hc
  · intro hbit
    simp only [seat_handle_get_pointer, h, hbit, if_true]
  · simp only [seat_handle_get_pointer, h]
    split <;> rfl
  · intro hget hbit
    simp only [seat_handle_get_keyboard, h, hbit, if_true] at hget
    have := congrArg wlr_seat_client.keyboards (Option.some.inj hget)
    exact hne _ this
  · intro hbit
    simp only [seat_handle_get_keyboard, h, hbit, if_false]
    exact from_resource_store h hc
  · intro hbit
    simp only [seat_handle_get_keyboard, h, hbit, if_true]
  · simp only [seat_handle_get_keyboard, h]
    split <;> rfl
  · intro hget hbit
    simp only [seat_handle_get_touch, h, hbit, if_true] at hget
    have := congrArg wlr_seat_client.touches (Option.some.inj hget)
    exact hne _ this
  · intro hbit
    simp only [seat_handle_get_touch, h, hbit, if_false]
    exact from_resource_store h hc
  · intro hbit
    simp only [seat_handle_get_touch, h, hbit, if_true]
  · simp only [seat_handle_get_touch, h]
    split <;> rfl

theorem get_sub_object_iff_capability_witness :
    wlr_seat_client_from_resource bound_once.seat 10 = some binding10 ∧
    seat_handle_get_touch bound_once 10 7 = bound_once ∧
    (wlr_seat_client_from_resource (seat_handle_get_pointer bound_once 10 7).seat 10 =
        some { binding10 with pointers := 7 :: binding10.pointers } ↔
      bound_once.seat.capabilities &&& WL_SEAT_CAPABILITY_POINTER ≠ 0) :=
  ⟨by decide,
   (get_sub_object_iff_capability bound_once 10 7 binding10 (by decide)).2.2.2.1 (by decide),
   (get_sub_object_iff_capability bound_once 10 7 binding10 (by decide)).1.1⟩

/-! ## Destruction of a binding -/

/-- C2: after a registered binding `b` is destroyed, the pointer focus reference
is empty if it named `b` and is what it was otherwise, and likewise the keyboard
focus reference; `b` is no longer registered and every other binding is still in
the list, unchanged. So when binding A holds pointer focus and B is registered
too, destroying A leaves pointer focus empty and B registered. -/
theorem destroy_clears_own_focus (w : World) (b : Nat) (c : wlr_seat_client)
    (h : wlr_seat_client_from_resource w.seat b = some c) :
    (seat_client_resource_destroy w b).seat.pointer_state.focused_client =
        (if w.seat.pointer_state.focused_client = some b then none
          else w.seat.pointer_state.focused_client) ∧
    (seat_client_resource_destroy w b).seat.keyboard_state.focused_client =
        (if w.seat.keyboard_state.focused_client = some b then none
          else w.seat.keyboard_state.focused_client) ∧
    b ∉ (seat_client_resource_destroy w b).seat.resources ∧
    (∀ a ∈ w.seat.clients, a.wl_resource ≠ b →
      a ∈ (seat_client_resource_destroy w b).seat.clients) ∧
    (∀ a ∈ w.seat.clients, a.wl_resource ≠ b →
      w.seat.pointer_state.focused_client = some b →
      (seat_client_resource_destroy w b).seat.pointer_state.focused_client = none ∧
      (seat_client_resource_destroy w b).seat.pointer_state.focused_client ≠
        some a.wl_resource) := by
  refine ⟨destroy_pointer_focus h, destroy_keyboard_focus h, ?_, ?_, ?_⟩
  · simp [wlr_seat.resources, destroy_clients h]
  · intro a ha hab
    simp [destroy_clients h, ha, hab]
  · intro a _ _ hfocus
    rw [destroy_pointer_focus h, hfocus]
    simp

theorem destroy_clears_own_focus_witness :
    wlr_seat_client_from_resource bound_twice.seat 10 = some binding10_full ∧
    bound_twice.seat.pointer_state.focused_client = some 10 ∧
    (seat_client_resource_destroy bound_twice 10).seat.pointer_state.focused_client = none ∧
    binding20 ∈ (seat_client_resource_destroy bound_twice 10).seat.clients :=
  ⟨by decide, by decide,
   ((destroy_clears_own_focus bound_twice 10 binding10_full (by decide)).2.2.2.2
      binding20 (by decide) (by decide) (by decide)).1,
   (destroy_clears_own_focus bound_twice 10 binding10_full (by decide)).2.2.2.1
      binding20 (by decide) (by decide)⟩

/-- C8: the destruction of a registered binding `b` with record `c` makes its
calls in this order. First the destroy signal of `b`, with the seat exactly as
it was before the call: `b` in the list with all its sub-objects, focus
references untouched. Then one `wl_resource_destroy` for each owned sub-object,
each made with the focus references to `b` already cleared and `b` still in the
list. The list removal comes last: the seat left behind is the seat of the
sub-object destructions without `b`. Nothing else is called. -/
theorem destroy_steps_in_order (w : World) (b : Nat) (c : wlr_seat_client)
    (h : wlr_seat_client_from_resource w.seat b = some c) :
    ∃ mid : wlr_seat,
      (seat_client_resource_destroy w b).trace =
        w.trace ++ Event.client_destroy_signal b w.seat ::
          c.owned.map (fun r => Event.resource_destroy r mid) ∧
      c ∈ w.seat.clients ∧ c.wl_resource = b ∧
      mid.clients = w.seat.clients ∧
      mid.pointer_state.focused_client ≠ some b ∧
      mid.keyboard_state.focused_client ≠ some b ∧
      (w.seat.pointer_state.focused_client ≠ some b →
        mid.pointer_state = w.seat.pointer_state) ∧
      (w.seat.keyboard_state.focused_client ≠ some b →
        mid.keyboard_state = w.seat.keyboard_state) ∧
      (seat_client_resource_destroy w b).seat = wl_list_remove mid b ∧
      b ∉ (seat_client_resource_destroy w b).seat.resources := by
  refine ⟨clear_keyboard_focus (clear_pointer_focus w.seat b) b, ?_, from_resource_mem h,
    from_resource_wl_resource h, ?_, ?_, ?_, ?_, ?_, ?_, ?_⟩
  · rw [seat_client_resource_destroy_eq h]
  · rw [clear_keyboard_focus_clients, clear_pointer_focus_clients]
  · rw [clear_keyboard_focus_pointer, clear_pointer_focus_focused]
    split <;> simp_all
  · rw [clear_keyboard_focus_focused, clear_pointer_focus_keyboard]
    split <;> simp_all
  · intro hp
    rw [clear_keyboard_focus_pointer]
    simp [clear_pointer_focus, hp]
  · intro hk
    have hk2 : (clear_pointer_focus w.seat b).keyboard_state.focused_client ≠ some b := by
      rw [clear_pointer_focus_keyboard]; exact hk
    unfold clear_keyboard_focus
    rw [if_neg hk2, clear_pointer_focus_keyboard]
  · exact seat_client_resource_destroy_seat h
  · simp [wlr_seat.resources, destroy_clients h]

theorem destroy_steps_in_order_witness :
    wlr_seat_client_from_resource bound_twice.seat 10 = some binding10_full ∧
    ∃ mid : wlr_seat,
      (seat_client_resource_destroy bound_twice 10).trace =
        bound_twice.trace ++ Event.client_destroy_signal 10 bound_twice.seat ::
          binding10_full.owned.map (fun r => Event.resource_destroy r mid) ∧
      binding10_full ∈ bound_twice.seat.clients ∧ binding10_full.wl_resource = 10 ∧
      mid.clients = bound_twice.seat.clients ∧
      mid.pointer_state.focused_client ≠ some 10 ∧
      mid.keyboard_state.focused_client ≠ some 10 ∧
      (bound_twice.seat.pointer_state.focused_client ≠ some 10 →
        mid.pointer_state = bound_twice.seat.pointer_state) ∧
      (bound_twice.seat.keyboard_state.focused_client ≠ some 10 →
        mid.keyboard_state = bound_twice.seat.keyboard_state) ∧
      (seat_client_resource_destroy bound_twice 10).seat = wl_list_remove mid 10 ∧
      10 ∉ (seat_client_resource_destroy bound_twice 10).seat.resources :=
  ⟨by decide, destroy_steps_in_order bound_twice 10 binding10_full (by decide)⟩

/-! ## Capabilities and name -/

/-- C3: `wlr_seat_set_capabilities` with mask `m` leaves the mask equal to `m`
and changes nothing else of the seat (binding list and focus references
included); the calls it makes are exactly one capabilities notification carrying
`m` per entry of the binding list, in list order, whatever the mask was before.
With distinct binding handles, a handle gets one notification if it is
registered and none otherwise. -/
theorem set_capabilities_notifies_each_binding_once (w : World) (m : Nat)
    (hnodup : w.seat.resources.Nodup) :
    (wlr_seat_set_capabilities w m).seat = { w.seat with capabilities := m } ∧
    (wlr_seat_set_capabilities w m).seat.capabilities = m ∧
    (wlr_seat_set_capabilities w m).seat.clients = w.seat.clients ∧
    (wlr_seat_set_capabilities w m).seat.pointer_state = w.seat.pointer_state ∧
    (wlr_seat_set_capabilities w m).seat.keyboard_state = w.seat.keyboard_state ∧
    (wlr_seat_set_capabilities w m).trace =
      w.trace ++ w.seat.resources.map (fun r => Event.send_capabilities r m) ∧
    ∀ r : Nat, (w.seat.resources.map (fun r => Event.send_capabilities r m)).count
        (Event.send_capabilities r m) = if r ∈ w.seat.resources then 1 else 0 := by
  refine ⟨?_, ?_, ?_, ?_, ?_, ?_, ?_⟩
  · rw [wlr_seat_set_capabilities_eq]
  · rw [wlr_seat_set_capabilities_eq]
  · rw [wlr_seat_set_capabilities_eq]
  · rw [wlr_seat_set_capabilities_eq]
  · rw [wlr_seat_set_capabilities_eq]
  · rw [wlr_seat_set_capabilities_eq]
    simp [wlr_seat.resources, List.map_map, Function.comp]
  · intro r
    have hinj : Function.Injective (fun r : Nat => Event.send_capabilities r m) := by
      intro a b hab
      injection hab
    rw [List.count_map_of_injective _ _ hinj]
    split
    · next hr => exact List.count_eq_one_of_mem hnodup hr
    · next hr => exact List.count_eq_zero_of_not_mem hr

theorem set_capabilities_notifies_each_binding_once_witness :
    bound_twice.seat.resources.Nodup ∧
    bound_twice.seat.capabilities = 3 ∧
    (wlr_seat_set_capabilities bound_twice 3).trace =
      bound_twice.trace ++ [Event.send_capabilities 20 3, Event.send_capabilities 10 3] ∧
    (wlr_seat_set_capabilities bound_twice 3).seat.clients = bound_twice.seat.clients :=
  ⟨by decide, by decide,
   (set_capabilities_notifies_each_binding_once bound_twice 3 (by decide)).2.2.2.2.2.1,
   (set_capabilities_notifies_each_binding_once bound_twice 3 (by decide)).2.2.1⟩

/-- C9, as stated, fails: client 1 binds first (resource 10), client 2 second
(resource 20); `wlr_seat_set_capabilities` and `wlr_seat_set_name` then notify
resource 20 first and resource 10 last, not in registration order. -/
theorem broadcast_not_in_registration_order :
    two_binds.seat.resources = [20, 10] ∧
    (wlr_seat_set_capabilities two_binds 3).trace =
      two_binds.trace ++ [Event.send_capabilities 20 3, Event.send_capabilities 10 3] ∧
    (wlr_seat_set_capabilities two_binds 3).trace ≠
      two_binds.trace ++ [Event.send_capabilities 10 3, Event.send_capabilities 20 3] ∧
    (wlr_seat_set_name two_binds "s").trace =
      two_binds.trace ++ [Event.send_name 20 "s", Event.send_name 10 "s"] ∧
    (wlr_seat_set_name two_binds "s").trace ≠
      two_binds.trace ++ [Event.send_name 10 "s", Event.send_name 20 "s"] := by
  decide

/-- C9, amended: after the binds `binds` (first to last, none destroyed in
between) the binding list holds the new bindings in reverse registration order,
ahead of the bindings that were there before, and `wlr_seat_set_capabilities`
delivers its notifications in that order: the binding registered last first,
the one registered first last. So does `wlr_seat_set_name` when every binding
of the list was bound at a version that has the name notification. -/
theorem broadcast_in_reverse_registration_order (w : World)
    (binds : List (Nat × Nat × Nat)) (m : Nat) (n : String) :
    (bind_all w binds).seat.resources =
      (binds.map (fun b => b.2.2)).reverse ++ w.seat.resources ∧
    (wlr_seat_set_capabilities (bind_all w binds) m).trace =
      (bind_all w binds).trace ++
        ((binds.map (fun b => b.2.2)).reverse ++ w.seat.resources).map
          (fun r => Event.send_capabilities r m) ∧
    ((∀ c ∈ (bind_all w binds).seat.clients, c.version ≥ WL_SEAT_NAME_SINCE_VERSION) →
      (wlr_seat_set_name (bind_all w binds) n).trace =
        (bind_all w binds).trace ++
          ((binds.map (fun b => b.2.2)).reverse ++ w.seat.resources).map
            (fun r => Event.send_name r n)) := by
  refine ⟨bind_all_resources binds w, ?_, ?_⟩
  · rw [wlr_seat_set_capabilities_eq, ← bind_all_resources binds w]
    simp [wlr_seat.resources, List.map_map, Function.comp]
  · intro _
    rw [wlr_seat_set_name_eq, ← bind_all_resources binds w]
    simp [wlr_seat.resources, List.map_map, Function.comp]

theorem broadcast_in_reverse_registration_order_witness :
    (∀ c ∈ (bind_all (World.mk seat0 []) [(1, 6, 10), (2, 6, 20), (3, 2, 30)]).seat.clients,
      c.version ≥ WL_SEAT_NAME_SINCE_VERSION) ∧
    (wlr_seat_set_name (bind_all (World.mk seat0 []) [(1, 6, 10), (2, 6, 20), (3, 2, 30)])
        "s").trace =
      (bind_all (World.mk seat0 []) [(1, 6, 10), (2, 6, 20), (3, 2, 30)]).trace ++
        [Event.send_name 30 "s", Event.send_name 20 "s", Event.send_name 10 "s"] :=
  ⟨by decide,
   (broadcast_in_reverse_registration_order (World.mk seat0 [])
      [(1, 6, 10), (2, 6, 20), (3, 2, 30)] 0 "s").2.2 (by decide)⟩

/-- C5: `wlr_seat_set_name` replaces the advertised name and sends the name
notification to every entry of the binding list, whatever its version. Here the
only binding was bound at version 1, below `WL_SEAT_NAME_SINCE_VERSION`: bind
sent it no name, `wlr_seat_set_name` does. -/
theorem set_name_ignores_version :
    wlr_seat_client_from_resource bound_v1.seat 10 =
      some { wl_resource := 10, client := 1, version := 1, pointers := [], keyboards := [],
             touches := [], data_devices := [], primary_selection_devices := [] } ∧
    ¬ (1 ≥ WL_SEAT_NAME_SINCE_VERSION) ∧
    bound_v1.trace = [Event.send_capabilities 10 0] ∧
    (wlr_seat_set_name bound_v1 "seat1").seat.name = "seat1" ∧
    (wlr_seat_set_name bound_v1 "seat1").trace =
      bound_v1.trace ++ [Event.send_name 10 "seat1"] := by
  decide

/-- C6: `wlr_seat_validate_grab_serial` answers true for every seat and serial,
also for a serial that is neither the pointer grab serial nor the touch grab
serial, where the check of its own comment answers false. -/
theorem validate_grab_serial_always_true :
    (∀ (seat : wlr_seat) (serial : Nat), wlr_seat_validate_grab_serial seat serial = true) ∧
    wlr_seat_validate_grab_serial seat_serials 3 = true ∧
    3 ≠ seat_serials.pointer_state.grab_serial ∧
    3 ≠ seat_serials.touch_state.grab_serial ∧
    grab_serial_matches seat_serials 3 = false :=
  ⟨fun _ _ => rfl, rfl, by decide, by decide, by decide⟩

/-! ## Bind -/

/-- C4: a bind whose allocations succeed, with a resource handle `r` not in use,
puts one new binding for the client at the head of the binding list, with its
five sub-object lists empty, and leaves the rest of the seat as it was (so `r`
is registered exactly once); the calls it makes are the seat's name to `r` if
and only if `version ≥ WL_SEAT_NAME_SINCE_VERSION` (2), then one capabilities
notification to `r` carrying the seat's mask; no notification goes to a binding
that was registered before. On a seat that was created and then underwent the
operations `ops`, that mask is the argument of the last `set_capabilities` of
`ops`, or 0 if there is none. -/
theorem bind_registers_and_notifies (w : World) (client version id r : Nat)
    (hfresh : r ∉ w.seat.resources) :
    (seat_handle_bind w client version id true (some r)).seat =
      { w.seat with clients :=
          { wl_resource := r, client := client, version := version, pointers := [],
            keyboards := [], touches := [], data_devices := [],
            primary_selection_devices := [] } :: w.seat.clients } ∧
    (seat_handle_bind w client version id true (some r)).seat.resources.count r = 1 ∧
    (seat_handle_bind w client version id true (some r)).trace =
      w.trace ++
        (if version ≥ WL_SEAT_NAME_SINCE_VERSION then [Event.send_name r w.seat.name] else []) ++
        [Event.send_capabilities r w.seat.capabilities] ∧
    (∀ c ∈ w.seat.clients, ∀ (m : Nat) (n : String),
      Event.send_capabilities c.wl_resource m ∉
        (if version ≥ WL_SEAT_NAME_SINCE_VERSION then [Event.send_name r w.seat.name] else []) ++
          [Event.send_capabilities r w.seat.capabilities] ∧
      Event.send_name c.wl_resource n ∉
        (if version ≥ WL_SEAT_NAME_SINCE_VERSION then [Event.send_name r w.seat.name] else []) ++
          [Event.send_capabilities r w.seat.capabilities]) ∧
    (∀ (name : String) (a b c d e : Bool) (s0 : wlr_seat) (ops : List Op),
      wlr_seat_create name a b c d e = some s0 → w = run (World.mk s0 []) ops →
      w.seat.capabilities = last_set_capabilities ops) := by
  refine ⟨?_, ?_, ?_, ?_, ?_⟩
  · rw [seat_handle_bind_eq]
  · rw [seat_handle_bind_eq]
    simp only [wlr_seat.resources, List.map_cons, List.count_cons_self]
    have := List.count_eq_zero_of_not_mem hfresh
    simp only [wlr_seat.resources] at this
    omega
  · rw [seat_handle_bind_eq]
  · intro c hc m n
    have hne : c.wl_resource ≠ r := by
      intro hcr
      apply hfresh
      rw [← hcr]
      exact List.mem_map_of_mem _ hc
    constructor
    · split <;> simp [hne]
    · split <;> simp [hne]
  · intro name a b c d e s0 ops hcreate hw
    rw [hw, run_capabilities, wlr_seat_create_eq hcreate]
    rfl

theorem bind_registers_and_notifies_witness :
    20 ∉ bound_once.seat.resources ∧
    (seat_handle_bind bound_once 2 1 1 true (some 20)).seat.clients =
      binding20 :: bound_once.seat.clients ∧
    (seat_handle_bind bound_once 2 1 1 true (some 20)).trace =
      bound_once.trace ++ [Event.send_capabilities 20 3] ∧
    (seat_handle_bind bound_once 2 6 1 true (some 20)).trace =
      bound_once.trace ++ [Event.send_name 20 "seat0", Event.send_capabilities 20 3] ∧
    bound_once.seat.capabilities =
      last_set_capabilities [Op.set_capabilities 3, Op.bind 1 6 1 true (some 10)] :=
  ⟨by decide,
   congrArg wlr_seat.clients (bind_registers_and_notifies bound_once 2 1 1 20 (by decide)).1,
   (bind_registers_and_notifies bound_once 2 1 1 20 (by decide)).2.2.1,
   (bind_registers_and_notifies bound_once 2 6 1 20 (by decide)).2.2.1,
   (bind_registers_and_notifies bound_once 2 1 1 20 (by decide)).2.2.2.2
     "seat0" true true true true true seat0 _ rfl rfl⟩

/-! ## Destruction of the seat -/

/-- C7: on a seat whose bindings have distinct handles and whose focus
references are empty or registered, the calls `wlr_seat_destroy` makes destroy,
in list order, each registered binding followed by each sub-object that binding
owns (pointers, keyboards, touches, data devices, primary-selection devices), and
nothing else: every registered binding is destroyed exactly once, no other
binding is. When the loop is over the binding list is empty and both focus
references are empty. On a null seat nothing is called and nothing changes. -/
theorem wlr_seat_destroy_destroys_each_binding_once (seat : wlr_seat) (trace : List Event)
    (hnodup : seat.resources.Nodup) (hfocus : focus_valid seat) :
    (∃ (final : wlr_seat) (new : List Event),
      wlr_seat_destroy (some seat) trace = (some final, trace ++ new) ∧
      new.filterMap Event.destroyed = seat.clients.flatMap wlr_seat_client.destructions ∧
      new.filterMap Event.destroyed_client = seat.resources ∧
      (∀ b : Nat, (new.filterMap Event.destroyed_client).count b =
        if b ∈ seat.resources then 1 else 0) ∧
      final.clients = [] ∧
      final.pointer_state.focused_client = none ∧
      final.keyboard_state.focused_client = none) ∧
    wlr_seat_destroy none trace = (none, trace) := by
  refine ⟨?_, rfl⟩
  obtain ⟨w3, pre, hrun, hclients, hp, hk, htrace, hpre1, hpre2⟩ :=
    wlr_seat_destroy_loop_entry seat trace
  have hv3 : focus_valid w3.seat := by
    refine @focus_valid_mono seat _ hp hk ?_ hfocus
    intro b hb
    simpa [wlr_seat.resources, hclients] using hb
  have hn3 : (w3.seat.clients.map (fun c => c.wl_resource)).Nodup := by
    rw [hclients]; exact hnodup
  obtain ⟨new, ht, hd, hc, hempty, hvalid⟩ := destroy_all w3.seat.clients w3 rfl hn3 hv3
  have hfoc := focus_valid_no_clients hempty hvalid
  have hres : List.filterMap Event.destroyed_client (pre ++ new ++ [Event.global_destroy]) =
      seat.resources := by
    simp only [List.filterMap_append, hpre2, hc, hclients, List.nil_append]
    simp [wlr_seat.resources, Event.destroyed_client]
  refine ⟨_, pre ++ new ++ [Event.global_destroy], ?_, ?_, hres, ?_, hempty, hfoc.1, hfoc.2⟩
  · rw [hrun, ht, htrace]
    simp only [List.append_assoc]
  · simp only [List.filterMap_append, hpre1, hd, hclients, List.nil_append]
    simp [Event.destroyed]
  · intro b
    rw [hres]
    split
    · next hb => exact List.count_eq_one_of_mem hnodup hb
    · next hb => exact List.count_eq_zero_of_not_mem hb

theorem wlr_seat_destroy_destroys_each_binding_once_witness :
    bound_twice.seat.resources.Nodup ∧ focus_valid bound_twice.seat ∧
    ∃ (final : wlr_seat) (new : List Event),
      wlr_seat_destroy (some bound_twice.seat) [] = (some final, [] ++ new) ∧
      new.filterMap Event.destroyed =
        [Destroyed.binding 20, Destroyed.binding 10, Destroyed.sub_object 11,
         Destroyed.sub_object 12] ∧
      final.clients = [] ∧
      final.pointer_state.focused_client = none ∧
      final.keyboard_state.focused_client = none :=
  ⟨by decide, by decide,
   match wlr_seat_destroy_destroys_each_binding_once bound_twice.seat [] (by decide)
      (by decide) with
   | ⟨⟨final, new, h1, h2, _, _, h5, h6, h7⟩, _⟩ => ⟨final, new, h1, h2, h5, h6, h7⟩⟩

/-! ## The focus invariant -/

/-- C10: a freshly created seat has both focus references empty; each operation
(bind, failed or not, get_pointer, get_keyboard, get_touch, release, destruction
of a binding, set_capabilities, set_name, focus assignment to a registered
binding or to none) takes a seat whose pointer and keyboard focus references are
each empty or a registered binding to a seat of which the same holds; so the
same holds in every state reached from a freshly created seat. -/
theorem focus_references_stay_registered :
    (∀ (name : String) (a b c d e : Bool) (s0 : wlr_seat),
      wlr_seat_create name a b c d e = some s0 → focus_valid s0) ∧
    (∀ (w : World) (op : Op), focus_valid w.seat → focus_valid (step w op).seat) ∧
    (∀ (name : String) (a b c d e : Bool) (s0 : wlr_seat) (ops : List Op),
      wlr_seat_create name a b c d e = some s0 →
      focus_valid (run (World.mk s0 []) ops).seat) := by
  have hcreate : ∀ (name : String) (a b c d e : Bool) (s0 : wlr_seat),
      wlr_seat_create name a b c d e = some s0 → focus_valid s0 := by
    intro name a b c d e s0 h
    rw [wlr_seat_create_eq h]
    exact ⟨trivial, trivial⟩
  exact ⟨hcreate, step_focus_valid,
    fun name a b c d e s0 ops h => run_focus_valid ops _ (hcreate name a b c d e s0 h)⟩

theorem focus_references_stay_registered_witness :
    wlr_seat_create "seat0" true true true true true = some seat0 ∧
    focus_valid bound_twice.seat ∧
    focus_valid (step bound_twice (Op.destroy 10)).seat ∧
    (step bound_twice (Op.destroy 10)).seat.pointer_state.focused_client = none :=
  ⟨rfl,
   focus_references_stay_registered.2.2 "seat0" true true true true true seat0 _ rfl,
   focus_references_stay_registered.2.1 bound_twice (Op.destroy 10) (by decide),
   by decide⟩

end WlrSeat
